import Mathlib

/-!
Verification development for the accio-ingestor repository.

A shallow embedding of the durable job queue (`src/accio_ingestor/queue.py`),
the job handlers (`src/accio-ingestor/jobs.py`), the watcher admission
pipeline (`src/accio-ingestor/watcher.py`), the extraction front-end
(`src/accio-ingestor/pdf_utils.py`) and the Slack notifier
(`src/accio_ingestor/slack.py`).

External collaborators (sha256 hashing, PDF/OCR extraction, base64,
json dumping, PII redaction regexes, the S3 client, the Accio HTTP client)
are passed in as function-valued parameters in an `Env` record: the theorems
hold for every instantiation of these collaborators.  The module
`hashing.py` (`sha256_file`) is imported by `pdf_utils.py` but is not in the
sources; per the spec (§4.1) it is a deterministic digest of the file bytes,
which is exactly how the `sha256_file` parameter is used here.

Machine integers: all timestamps are Python `int(time.time())` values,
arbitrary-precision in Python, embedded as `Nat`.
-/

namespace Accio

/-- File contents: a byte sequence (each entry one byte value). -/
abbrev Bytes := List Nat

/-- JSON-like values, the shallow form of the Python dict/list payloads
stored in the `payload` column of the `jobs` table. -/
inductive JVal where
  | str (s : String)
  | nat (n : Nat)
  | arr (xs : List JVal)
  | obj (fields : List (String × JVal))

/-- Dict lookup `payload["k"]` as an `Option` (Python raises `KeyError`
when absent; callers below turn `none` into an error). -/
def JVal.get? : JVal → String → Option JVal
  | .obj fields, k => fields.lookup k
  | _, _ => none

/-- `payload.get("k", default)` (jobs.py line 71). -/
def JVal.getD (v : JVal) (k : String) (d : JVal) : JVal :=
  (v.get? k).getD d

/-- One page of extracted text (`schema.Page`). -/
structure Page where
  page : Nat
  text : String

/-- The extracted-document payload (`schema.DocumentPayload`). -/
structure DocumentPayload where
  filename : String
  sha256 : String
  pages : List Page

/-- A row of the `jobs` table (queue.py lines 39-47).  `sha256` is the
nullable correlation column, `next_at` the not-before timestamp. -/
structure Job where
  id : Nat
  jtype : String
  payload : JVal
  sha256 : Option String
  attempts : Nat
  next_at : Nat
  created_at : Nat

/-- A row of the `seen_files` table (queue.py lines 52-57);
`sha256` is the primary key. -/
structure SeenRec where
  sha256 : String
  filename : String
  created_at : Nat
deriving DecidableEq

/-- The durable store backing `JobQueue`: the `jobs` table, the
`seen_files` table, and the next AUTOINCREMENT id. -/
structure Store where
  jobs : List Job
  seen : List SeenRec
  nextId : Nat

/-- `JobQueue.is_seen` (queue.py lines 68-71): membership of the hash in
`seen_files`. -/
def Store.is_seen (st : Store) (sha : String) : Bool :=
  st.seen.any (fun r => r.sha256 == sha)

/-- `JobQueue.mark_seen` (queue.py lines 61-66): `INSERT OR IGNORE` into
`seen_files` — a no-op when the hash is already present. -/
def Store.mark_seen (st : Store) (sha filename : String) (now : Nat) : Store :=
  if st.is_seen sha then st
  else { st with seen := st.seen ++ [⟨sha, filename, now⟩] }

/-- `JobQueue.enqueue` (queue.py lines 73-83): insert a job with
`attempts = 0`, `next_at = now`, `created_at = now`; returns the new row id. -/
def Store.enqueue (st : Store) (ty : String) (payload : JVal)
    (sha : Option String) (now : Nat) : Nat × Store :=
  (st.nextId,
    { st with
      jobs := st.jobs ++ [⟨st.nextId, ty, payload, sha, 0, now, now⟩]
      nextId := st.nextId + 1 })

/-- The `SELECT * FROM jobs WHERE next_at <= now ORDER BY id LIMIT 1` of
`JobQueue._dequeue_due` (queue.py line 89): the due row of least id. -/
def selectDue (now : Nat) : List Job → Option Job
  | [] => none
  | j :: rest =>
    match selectDue now rest with
    | none => if j.next_at ≤ now then some j else none
    | some k =>
      if j.next_at ≤ now then (if j.id ≤ k.id then some j else some k)
      else some k

/-- The `UPDATE jobs SET next_at = now + 5 WHERE id = jobId` of
`JobQueue._dequeue_due` (queue.py line 93): the short lease. -/
def Store.bumpLease (st : Store) (jobId : Nat) (now : Nat) : Store :=
  { st with
    jobs := st.jobs.map (fun r =>
      if r.id = jobId then { r with next_at := now + 5 } else r) }

/-- `JobQueue._dequeue_due` (queue.py lines 85-95): pick the least-id due
row (as read, before the lease update) and bump its `next_at` by 5 s. -/
def Store.dequeue_due (st : Store) (now : Nat) : Option Job × Store :=
  match selectDue now st.jobs with
  | none => (none, st)
  | some j => (some j, st.bumpLease j.id now)

/-- The retry backoff of `JobQueue._run` (queue.py line 133):
`min(60, 2 ** attempts)` seconds. -/
def backoff (n : Nat) : Nat := min 60 (2 ^ n)

/-- A sample of `path.stat()`: the `st_size` and `st_mtime` fields compared
by `watcher._is_stable`. -/
structure Stat where
  size : Nat
  mtime : Nat
deriving DecidableEq

/-- The external collaborators of the core, passed as functions so every
theorem holds for all of their behaviours:

* `sha256_file`: the digest of `hashing.sha256_file` — the module is imported
  by `pdf_utils.py` but absent from the sources; per spec §4.1 it is a
  deterministic function of the file bytes, which is all that is used here;
* `extract_pdf_pages`: `pdf_utils.extract_pdf_pages_text` (PyMuPDF + OCR);
* `ocr_image`: `ocr.ocr_image_bytes`;
* `b64encode` / `b64decode`: Python `base64`;
* `dumpDoc`: `json.dumps(payload_model.model_dump()).encode("utf-8")`;
* `redact`: `pii.redact` (regex masking, opaque here);
* `s3_key`: the date/prefix key layout of `jobs._job_s3_put` line 74;
* `s3_put_object`: `S3Uploader.put_object_with_retention`;
* `accio_post`: `AccioClient.post_document`;
* `slackConfigured`: whether `settings.SLACK_WEBHOOK_URL` is set. -/
structure Env where
  sha256_file : Bytes → String
  extract_pdf_pages : Bytes → List Page
  ocr_image : Bytes → String
  b64encode : Bytes → String
  b64decode : String → Bytes
  dumpDoc : DocumentPayload → Bytes
  redact : String → String
  s3_key : String → String → String
  s3_put_object : String → Bytes → String → JVal → Except String Unit
  accio_post : JVal → Except String Unit
  slackConfigured : Bool

/-- The sanitized message `SlackClient.error` builds (slack.py lines 49-60):
text, code, `ctx.get("filename", "")`, `ctx.get("sha256", "")`, and the
message truncated to 300 characters then redacted. -/
structure SlackMsg where
  text : String
  errCode : String
  filename : String
  sha : String
  info : String
deriving DecidableEq

/-- `SlackClient.error` (slack.py lines 45-61): a no-op when no webhook is
configured, otherwise it queues exactly one sanitized message. -/
def slackError (env : Env) (code : String) (ctx : List (String × String)) :
    List SlackMsg :=
  if env.slackConfigured then
    [⟨"Accio Ingestor error: " ++ code, code,
      (ctx.lookup "filename").getD "",
      (ctx.lookup "sha256").getD "",
      env.redact (((ctx.lookup "message").getD "").take 300)⟩]
  else []

/-- `jobs._job_s3_put` (jobs.py lines 66-80): decode the payload fields,
build the dated key and call the S3 collaborator; any error propagates
(the handler re-raises, deferring Slack to the worker attempts policy). -/
def job_s3_put (env : Env) (payload : JVal) : Except String Unit :=
  match payload.get? "kind", payload.get? "filename",
      payload.get? "bytes_b64", payload.get? "content_type" with
  | some (.str kind), some (.str filename), some (.str b64), some (.str ct) =>
    env.s3_put_object (env.s3_key kind filename) (env.b64decode b64) ct
      (payload.getD "tags" (.obj []))
  | _, _, _, _ => .error "KeyError"

/-- `jobs._job_accio` (jobs.py lines 83-91): post `payload["json"]` to the
Accio collaborator; any error propagates (the handler re-raises). -/
def job_accio (env : Env) (payload : JVal) : Except String Unit :=
  match payload.get? "json" with
  | some doc => env.accio_post doc
  | none => .error "KeyError: json"

/-- `jobs.handle_job` (jobs.py lines 57-63): dispatch on the job type
string; any type other than S3_PUT and ACCIO raises `ValueError`. -/
def handle_job (env : Env) (ty : String) (payload : JVal) : Except String Unit :=
  if ty == "S3_PUT" then job_s3_put env payload
  else if ty == "ACCIO" then job_accio env payload
  else .error ("Unknown job type " ++ ty)

/-- What one pass of the worker loop did. -/
inductive StepOutcome where
  | idle
  | completed (jobId : Nat)
  | failed (jobId : Nat) (attempts : Nat)
deriving DecidableEq

/-- Result of one pass of the worker loop: the store afterwards, the
`SlackClient.error` notifications emitted during the pass, and the outcome. -/
structure StepResult where
  store : Store
  notified : List SlackMsg
  outcome : StepOutcome

/-- One iteration of the loop body of `JobQueue._run` (queue.py lines
118-150).  `tClaim` is the `int(time.time())` read inside `_dequeue_due`,
`tFail` the one read at line 134.  On dispatch failure the row is updated
to `attempts + 1` and `next_at = tFail + min(60, 2 ** (attempts + 1))`;
on success the row is deleted.  `notified` is `[]` on every path: when
`attempts >= 10` the code at lines 141-143 only writes a log line — its
comment defers the Slack notification to `jobs.handle_job`, whose handlers
re-raise and defer it back to the worker, so no `SlackClient.error` call
exists anywhere on the worker path. -/
def workerStep (env : Env) (st : Store) (tClaim tFail : Nat) : StepResult :=
  match st.dequeue_due tClaim with
  | (none, _) => ⟨st, [], .idle⟩
  | (some row, stL) =>
    match handle_job env row.jtype row.payload with
    | .ok _ =>
      ⟨{ stL with jobs := stL.jobs.filter (fun r => r.id ≠ row.id) }, [],
        .completed row.id⟩
    | .error _ =>
      ⟨{ stL with jobs := stL.jobs.map (fun r =>
          if r.id = row.id then
            { r with attempts := row.attempts + 1,
                     next_at := tFail + backoff (row.attempts + 1) }
          else r) }, [],
        .failed row.id (row.attempts + 1)⟩

/-- The tag dict of both S3 payloads (jobs.py lines 32 and 44). -/
def s3Tags : JVal := .obj [("retention", .str "2y"), ("app", .str "accio-ingestor")]

/-- `payload_model.model_dump()` as a JSON value (schema.py). -/
def docJson (d : DocumentPayload) : JVal :=
  .obj [("filename", .str d.filename), ("sha256", .str d.sha256),
        ("pages", .arr (d.pages.map (fun p =>
          .obj [("page", .nat p.page), ("text", .str p.text)])))]

/-- The payload of the first enqueued job (jobs.py lines 25-35):
the original bytes for S3. -/
def originalPayload (env : Env) (filename ct : String) (content : Bytes) : JVal :=
  .obj [("kind", .str "original"), ("filename", .str filename),
        ("content_type", .str ct),
        ("bytes_b64", .str (env.b64encode content)), ("tags", s3Tags)]

/-- The payload of the second enqueued job (jobs.py lines 37-47):
the extracted JSON for S3. -/
def extractedPayload (env : Env) (sha : String) (d : DocumentPayload) : JVal :=
  .obj [("kind", .str "extracted"), ("filename", .str (sha ++ ".json")),
        ("content_type", .str "application/json"),
        ("bytes_b64", .str (env.b64encode (env.dumpDoc d))), ("tags", s3Tags)]

/-- The payload of the third enqueued job (jobs.py line 51): the Accio post. -/
def accioPayload (d : DocumentPayload) : JVal := .obj [("json", docJson d)]

/-- `jobs.enqueue_ingest_jobs` (jobs.py lines 21-54): three `queue.enqueue`
calls in a fixed order — S3 original, S3 extracted JSON, Accio post — all
tagged with the document's sha256. -/
def enqueue_ingest_jobs (env : Env) (st : Store) (d : DocumentPayload)
    (sha : String) (content : Bytes) (ct filename : String) (now : Nat) : Store :=
  let st1 := (st.enqueue "S3_PUT" (originalPayload env filename ct content)
    (some sha) now).2
  let st2 := (st1.enqueue "S3_PUT" (extractedPayload env sha d) (some sha) now).2
  (st2.enqueue "ACCIO" (accioPayload d) (some sha) now).2

/-- The three rows that `enqueue_ingest_jobs` inserts, in order. -/
def ingestJobs (env : Env) (st : Store) (d : DocumentPayload) (sha : String)
    (content : Bytes) (ct filename : String) (now : Nat) : List Job :=
  [⟨st.nextId, "S3_PUT", originalPayload env filename ct content, some sha, 0, now, now⟩,
   ⟨st.nextId + 1, "S3_PUT", extractedPayload env sha d, some sha, 0, now, now⟩,
   ⟨st.nextId + 2, "ACCIO", accioPayload d, some sha, 0, now, now⟩]

/-- `JobQueue.enqueue` under a storage-failure oracle: each enqueue runs in
its own connection and commits on its own (queue.py lines 73-83); `crash`
says whether the insert of the row with the given id raises.  A raising
insert leaves the store as it was; earlier commits are durable. -/
def Store.enqueueF (crash : Nat → Bool) (st : Store) (ty : String)
    (payload : JVal) (sha : Option String) (now : Nat) : Option Store :=
  if crash st.nextId then none else some (st.enqueue ty payload sha now).2

/-- `jobs.enqueue_ingest_jobs` under the storage-failure oracle: the three
inserts run in order; the first failure aborts the function (the exception
propagates to the caller) with every previously committed row kept.
Returns the store as left behind and whether all three inserts committed. -/
def enqueue_ingest_jobsF (crash : Nat → Bool) (env : Env) (st : Store)
    (d : DocumentPayload) (sha : String) (content : Bytes) (ct filename : String)
    (now : Nat) : Store × Bool :=
  match st.enqueueF crash "S3_PUT" (originalPayload env filename ct content)
      (some sha) now with
  | none => (st, false)
  | some st1 =>
    match st1.enqueueF crash "S3_PUT" (extractedPayload env sha d) (some sha) now with
    | none => (st1, false)
    | some st2 =>
      match st2.enqueueF crash "ACCIO" (accioPayload d) (some sha) now with
      | none => (st2, false)
      | some st3 => (st3, true)

/-- Python `str.lower`, applied per character (the watcher lowercases the
extension, watcher.py line 38). -/
def strLower (s : String) : String := String.mk (s.toList.map Char.toLower)

/-- Python `pathlib.Path(name).suffix` on a basename: the substring from
the last dot, or empty when there is no dot, the dot is leading, or the
dot is the final character. -/
def pathSuffix (name : String) : String :=
  let cs := name.toList
  match ((List.range cs.length).filter (fun k => cs.getD k ' ' == '.')).getLast? with
  | none => ""
  | some i => if 0 < i ∧ i < cs.length - 1 then String.mk (cs.drop i) else ""

/-- The extension allow-list of `Handler.on_created` (watcher.py line 39). -/
def allowedExts : List String := [".pdf", ".jpg", ".jpeg", ".png"]

/-- `watcher._is_stable` (watcher.py lines 22-27) at loop iteration `i`:
two consecutive stat samples (indices `2*i` and `2*i+1` of the sample
stream) agree on both size and mtime. -/
def is_stable (stats : Nat → Stat) (i : Nat) : Bool :=
  (stats (2 * i)).size == (stats (2 * i + 1)).size &&
  (stats (2 * i)).mtime == (stats (2 * i + 1)).mtime

/-- The stability wait of `Handler.on_created` (watcher.py lines 44-49):
up to 60 `_is_stable` probes; the first succeeding iteration, or `none`
when the for-loop falls through to its else and raises `TimeoutError`. -/
def stableIdx (stats : Nat → Stat) : Option Nat :=
  (List.range 60).find? (is_stable stats)

/-- `pdf_utils.process_file_to_payload` (pdf_utils.py lines 30-52) on a file
with basename `name` and bytes `content`: returns
(payload, original_bytes, content_type, sha256) or raises on an
unsupported extension. -/
def process_file_to_payload (env : Env) (name : String) (content : Bytes) :
    Except String (DocumentPayload × Bytes × String × String) :=
  let suffix := strLower (pathSuffix name)
  let sha := env.sha256_file content
  if suffix == ".pdf" then
    .ok (⟨name, sha, env.extract_pdf_pages content⟩, content, "application/pdf", sha)
  else if suffix == ".jpg" || suffix == ".jpeg" || suffix == ".png" then
    .ok (⟨name, sha, [⟨1, env.ocr_image content⟩]⟩, content,
      (if suffix == ".jpg" || suffix == ".jpeg" then "image/jpeg" else "image/png"),
      sha)
  else .error ("Unsupported file type: " ++ suffix)

/-- The three directories of the pipeline (config WATCH_DIR, PROCESSED_DIR,
FAILED_DIR), each a name-to-content table. -/
structure Fs where
  watch : List (String × Bytes)
  processed : List (String × Bytes)
  failed : List (String × Bytes)

/-- Write `content` under `name` in a directory, overwriting an existing
entry of that name (the effect of `dest.write_bytes` and `shutil.move`). -/
def fsWrite (dir : List (String × Bytes)) (name : String) (content : Bytes) :
    List (String × Bytes) :=
  if dir.any (fun e => e.1 == name) then
    dir.map (fun e => if e.1 == name then (name, content) else e)
  else dir ++ [(name, content)]

/-- Remove the entry named `name` (the effect of `path.unlink` and of the
source side of `shutil.move`). -/
def fsRemove (dir : List (String × Bytes)) (name : String) :
    List (String × Bytes) :=
  dir.filter (fun e => e.1 ≠ name)

/-- The observable state the watcher and worker share: the durable store,
the three directories, and the notifications sent so far. -/
structure SysState where
  store : Store
  fs : Fs
  notified : List SlackMsg

/-- `Handler.on_created` (watcher.py lines 35-76) for a created file with
basename `name` and bytes `content`, driven by the stat-sample stream
`stats`.  Unsupported extensions return before any admission step.  A
stability timeout or an extraction error is caught at line 68: one
sanitized `PROCESSING_FAILED` notification, then the file moves to the
failed directory.  A seen hash short-circuits to the processed directory
with no enqueue (lines 53-59); otherwise `mark_seen`, the three ingest
jobs, and the move to processed (lines 61-66). -/
def on_created (env : Env) (stats : Nat → Stat) (name : String) (content : Bytes)
    (sys : SysState) (now : Nat) : SysState :=
  if strLower (pathSuffix name) ∈ allowedExts then
    match stableIdx stats with
    | none =>
      { sys with
        notified := sys.notified ++ slackError env "PROCESSING_FAILED"
          [("filename", name), ("message", "file not stable")],
        fs := { sys.fs with
          watch := fsRemove sys.fs.watch name,
          failed := fsWrite sys.fs.failed name content } }
    | some _ =>
      match process_file_to_payload env name content with
      | .error e =>
        { sys with
          notified := sys.notified ++ slackError env "PROCESSING_FAILED"
            [("filename", name), ("message", e)],
          fs := { sys.fs with
            watch := fsRemove sys.fs.watch name,
            failed := fsWrite sys.fs.failed name content } }
      | .ok (payload, original_bytes, ct, sha) =>
        if sys.store.is_seen sha then
          { sys with fs := { sys.fs with
              processed := fsWrite sys.fs.processed name original_bytes,
              watch := fsRemove sys.fs.watch name } }
        else
          { store := enqueue_ingest_jobs env (sys.store.mark_seen sha name now)
              payload sha original_bytes ct name now,
            fs := { sys.fs with
              processed := fsWrite sys.fs.processed name content,
              watch := fsRemove sys.fs.watch name },
            notified := sys.notified }
  else sys

/-- A concrete instantiation of the collaborators, used to evaluate the
definitions at specific inputs. -/
def envT : Env where
  sha256_file := fun b => toString b.length
  extract_pdf_pages := fun _ => [⟨1, "Invoice #42"⟩]
  ocr_image := fun _ => "scan"
  b64encode := fun _ => "QUJD"
  b64decode := fun _ => [65]
  dumpDoc := fun _ => [123]
  redact := fun s => s
  s3_key := fun kind filename => "ingests/" ++ kind ++ "/" ++ filename
  s3_put_object := fun _ _ _ _ => .ok ()
  accio_post := fun _ => .ok ()
  slackConfigured := true

/-- The collaborators with both sinks failing (network down / HTTP 500). -/
def envDown : Env :=
  { envT with
    s3_put_object := fun _ _ _ _ => .error "S3 down"
    accio_post := fun _ => .error "Accio HTTP 500" }

/-- A one-page document payload for concrete runs. -/
def docT : DocumentPayload := ⟨"inv.pdf", "hash1", [⟨1, "Invoice #42"⟩]⟩

/-- A stored ACCIO job that has already failed nine times and is due. -/
def jobNine : Job := ⟨1, "ACCIO", accioPayload docT, some "hash1", 9, 0, 0⟩

/-- A store holding only `jobNine`. -/
def stNine : Store := ⟨[jobNine], [], 2⟩

/-- A stored ACCIO job that has failed three times and is due. -/
def jobThree : Job := ⟨1, "ACCIO", accioPayload docT, some "hash1", 3, 0, 0⟩

/-- A store holding only `jobThree`. -/
def stThree : Store := ⟨[jobThree], [], 2⟩

/-- An empty store whose next row id is 1 (sqlite AUTOINCREMENT starts at 1). -/
def stEmpty : Store := ⟨[], [], 1⟩

/-- A storage-failure oracle that raises exactly on the insert of row 2. -/
def crashOnSecond : Nat → Bool := fun n => n == 2

/-- A stat stream that never yields two equal consecutive samples. -/
def statsGrowing : Nat → Stat := fun k => ⟨k, 0⟩

/-- A constant stat stream: stable at the first probe. -/
def statsConst : Nat → Stat := fun _ => ⟨3, 4⟩

/-- A fresh system state: empty store, one file in the watch directory. -/
def sysFresh : SysState := ⟨stEmpty, ⟨[("a.pdf", [1, 2])], [], []⟩, []⟩

theorem selectDue_eq_none_iff (now : Nat) (l : List Job) :
    selectDue now l = none ↔ ∀ j ∈ l, ¬ j.next_at ≤ now := by
  induction l with
  | nil => simp [selectDue]
  | cons b rest ih =>
    simp only [selectDue]
    cases hr : selectDue now rest with
    | none =>
      dsimp only
      have hrest : ∀ x ∈ rest, ¬ x.next_at ≤ now := ih.mp hr
      by_cases hd : b.next_at ≤ now
      · rw [if_pos hd]
        constructor
        · intro hc; exact Option.noConfusion hc
        · intro hall; exact absurd hd (hall b (List.mem_cons_self b rest))
      · rw [if_neg hd]
        constructor
        · intro _ x hx
          rcases List.mem_cons.mp hx with h1 | h2
          · subst h1; exact hd
          · exact hrest x h2
        · intro _; rfl
    | some k =>
      dsimp only
      have hex : ¬ ∀ x ∈ rest, ¬ x.next_at ≤ now := by
        intro hall
        rw [ih.mpr hall] at hr
        exact Option.noConfusion hr
      constructor
      · intro hc
        by_cases hd : b.next_at ≤ now
        · rw [if_pos hd] at hc
          by_cases hid : b.id ≤ k.id
          · rw [if_pos hid] at hc; exact Option.noConfusion hc
          · rw [if_neg hid] at hc; exact Option.noConfusion hc
        · rw [if_neg hd] at hc; exact Option.noConfusion hc
      · intro hall
        exact absurd (fun x hx => hall x (List.mem_cons_of_mem b hx)) hex

theorem selectDue_mem (now : Nat) (l : List Job) (j : Job)
    (h : selectDue now l = some j) : j ∈ l ∧ j.next_at ≤ now := by
  induction l generalizing j with
  | nil => simp [selectDue] at h
  | cons b rest ih =>
    simp only [selectDue] at h
    cases hr : selectDue now rest with
    | none =>
      rw [hr] at h
      dsimp only at h
      by_cases hd : b.next_at ≤ now
      · rw [if_pos hd] at h
        injection h with h
        subst h
        exact ⟨List.mem_cons_self b rest, hd⟩
      · rw [if_neg hd] at h
        exact Option.noConfusion h
    | some k =>
      rw [hr] at h
      dsimp only at h
      by_cases hd : b.next_at ≤ now
      · rw [if_pos hd] at h
        by_cases hid : b.id ≤ k.id
        · rw [if_pos hid] at h
          injection h with h
          subst h
          exact ⟨List.mem_cons_self b rest, hd⟩
        · rw [if_neg hid] at h
          injection h with h
          subst h
          obtain ⟨hm, hdk⟩ := ih k hr
          exact ⟨List.mem_cons_of_mem b hm, hdk⟩
      · rw [if_neg hd] at h
        injection h with h
        subst h
        obtain ⟨hm, hdk⟩ := ih k hr
        exact ⟨List.mem_cons_of_mem b hm, hdk⟩

theorem selectDue_min (now : Nat) (l : List Job) (j : Job)
    (h : selectDue now l = some j) :
    ∀ k ∈ l, k.next_at ≤ now → j.id ≤ k.id := by
  induction l generalizing j with
  | nil => simp [selectDue] at h
  | cons b rest ih =>
    simp only [selectDue] at h
    intro k hk hkdue
    cases hr : selectDue now rest with
    | none =>
      rw [hr] at h
      dsimp only at h
      by_cases hd : b.next_at ≤ now
      · rw [if_pos hd] at h
        injection h with h
        subst h
        rcases List.mem_cons.mp hk with hka | hkr
        · subst hka; exact le_refl _
        · exact absurd hkdue ((selectDue_eq_none_iff now rest).mp hr k hkr)
      · rw [if_neg hd] at h
        exact Option.noConfusion h
    | some m =>
      rw [hr] at h
      dsimp only at h
      by_cases hd : b.next_at ≤ now
      · rw [if_pos hd] at h
        by_cases hid : b.id ≤ m.id
        · rw [if_pos hid] at h
          injection h with h
          subst h
          rcases List.mem_cons.mp hk with hka | hkr
          · subst hka; exact le_refl _
          · exact le_trans hid (ih m hr k hkr hkdue)
        · rw [if_neg hid] at h
          injection h with h
          subst h
          rcases List.mem_cons.mp hk with hka | hkr
          · subst hka; omega
          · exact ih m hr k hkr hkdue
      · rw [if_neg hd] at h
        injection h with h
        subst h
        rcases List.mem_cons.mp hk with hka | hkr
        · subst hka; exact absurd hkdue hd
        · exact ih m hr k hkr hkdue

theorem dequeue_due_fst (st : Store) (now : Nat) :
    (st.dequeue_due now).1 = selectDue now st.jobs := by
  cases h : selectDue now st.jobs <;> simp [Store.dequeue_due, h]

theorem workerStep_idle (env : Env) (st : Store) (tClaim tFail : Nat)
    (h : selectDue tClaim st.jobs = none) :
    workerStep env st tClaim tFail = ⟨st, [], .idle⟩ := by
  unfold workerStep Store.dequeue_due
  rw [h]

theorem workerStep_ok (env : Env) (st : Store) (tClaim tFail : Nat) (row : Job)
    (hrow : selectDue tClaim st.jobs = some row)
    (hok : handle_job env row.jtype row.payload = .ok ()) :
    workerStep env st tClaim tFail =
      ⟨{ st.bumpLease row.id tClaim with
          jobs := (st.bumpLease row.id tClaim).jobs.filter (fun r => r.id ≠ row.id) },
        [], .completed row.id⟩ := by
  unfold workerStep Store.dequeue_due
  rw [hrow]
  dsimp only
  rw [hok]

theorem workerStep_err (env : Env) (st : Store) (tClaim tFail : Nat) (row : Job)
    (e : String)
    (hrow : selectDue tClaim st.jobs = some row)
    (hfail : handle_job env row.jtype row.payload = .error e) :
    workerStep env st tClaim tFail =
      ⟨{ st.bumpLease row.id tClaim with
          jobs := (st.bumpLease row.id tClaim).jobs.map (fun r =>
            if r.id = row.id then
              { r with attempts := row.attempts + 1,
                       next_at := tFail + backoff (row.attempts + 1) }
            else r) },
        [], .failed row.id (row.attempts + 1)⟩ := by
  unfold workerStep Store.dequeue_due
  rw [hrow]
  dsimp only
  rw [hfail]

theorem map_id_of_id_fixed (l : List Job) (f : Job → Job)
    (hf : ∀ r, (f r).id = r.id) :
    (l.map f).map Job.id = l.map Job.id := by
  induction l with
  | nil => rfl
  | cons a t ih => simp [hf, ih]

theorem filter_comp_map {α β : Type} (f : α → β) (p : β → Bool) (l : List α) :
    (l.filter (fun x => p (f x))).map f = (l.map f).filter p := by
  induction l with
  | nil => rfl
  | cons a t ih =>
    cases h : p (f a) <;> simp [List.filter_cons, h, ih]

theorem map_id_filter_ne (l : List Job) (i : Nat) :
    (l.filter (fun r => r.id ≠ i)).map Job.id
      = (l.map Job.id).filter (fun x => x ≠ i) :=
  filter_comp_map Job.id (fun x => decide (x ≠ i)) l

theorem bumpLease_map_id (st : Store) (jobId now : Nat) :
    (st.bumpLease jobId now).jobs.map Job.id = st.jobs.map Job.id := by
  unfold Store.bumpLease
  apply map_id_of_id_fixed
  intro r
  by_cases h : r.id = jobId <;> simp [h]

theorem backoff_mono (n : Nat) : backoff n ≤ backoff (n + 1) := by
  unfold backoff
  exact le_min (min_le_left _ _)
    (le_trans (min_le_right _ _) (Nat.pow_le_pow_right (by norm_num) (by omega)))

theorem backoff_le_cap (n : Nat) : backoff n ≤ 60 := min_le_left _ _

theorem backoff_at_cap (n : Nat) (h : 6 ≤ n) : backoff n = 60 := by
  unfold backoff
  exact min_eq_left (le_trans (by norm_num)
    (Nat.pow_le_pow_right (by norm_num) h))

/-- C7: admitting one document enqueues exactly three jobs, in the fixed
order S3 original blob, S3 derived-JSON blob, Accio API post, and all
three rows carry the document's content hash in their `sha256` column. -/
theorem c7_admission_three_jobs (env : Env) (st : Store) (d : DocumentPayload)
    (sha : String) (content : Bytes) (ct filename : String) (now : Nat) :
    (enqueue_ingest_jobs env st d sha content ct filename now).jobs
        = st.jobs ++ ingestJobs env st d sha content ct filename now ∧
    (ingestJobs env st d sha content ct filename now).map Job.jtype
        = ["S3_PUT", "S3_PUT", "ACCIO"] ∧
    (ingestJobs env st d sha content ct filename now).map Job.payload
        = [originalPayload env filename ct content, extractedPayload env sha d,
           accioPayload d] ∧
    (ingestJobs env st d sha content ct filename now).map Job.sha256
        = [some sha, some sha, some sha] := by
  refine ⟨?_, rfl, rfl, rfl⟩
  simp [enqueue_ingest_jobs, Store.enqueue, ingestJobs]

/-- C6 counterexample: with a storage failure on the second of the three
inserts, admission of one document aborts with exactly one job committed
in the store — neither all of the document's jobs nor none of them. -/
theorem c6_counterexample :
    (enqueue_ingest_jobsF crashOnSecond envT stEmpty docT "hash1" [1, 2]
        "application/pdf" "a.pdf" 0).2 = false ∧
    ¬ ((enqueue_ingest_jobsF crashOnSecond envT stEmpty docT "hash1" [1, 2]
        "application/pdf" "a.pdf" 0).1.jobs.length = 0 ∨
       (enqueue_ingest_jobsF crashOnSecond envT stEmpty docT "hash1" [1, 2]
        "application/pdf" "a.pdf" 0).1.jobs.length = 3) := by
  refine ⟨rfl, ?_⟩
  have h1 : (enqueue_ingest_jobsF crashOnSecond envT stEmpty docT "hash1" [1, 2]
      "application/pdf" "a.pdf" 0).1.jobs.length = 1 := rfl
  intro h
  rcases h with h | h <;> omega

/-- C6 amended: enqueueing the derived jobs is not atomic — each of the
three inserts commits in its own transaction, so when admission fails
partway through, exactly the already-inserted prefix of the fixed job
order remains in the durable store (and all three remain exactly when
every insert succeeded). -/
theorem c6_inserts_are_prefix (crash : Nat → Bool) (env : Env) (st : Store)
    (d : DocumentPayload) (sha : String) (content : Bytes) (ct filename : String)
    (now : Nat) :
    ∃ k ≤ 3,
      (enqueue_ingest_jobsF crash env st d sha content ct filename now).1.jobs
        = st.jobs ++ (ingestJobs env st d sha content ct filename now).take k ∧
      ((enqueue_ingest_jobsF crash env st d sha content ct filename now).2 = true
        ↔ k = 3) := by
  simp only [enqueue_ingest_jobsF, Store.enqueueF, Store.enqueue]
  by_cases h1 : crash st.nextId
  · exact ⟨0, by omega, by simp [h1], by simp [h1]⟩
  · by_cases h2 : crash (st.nextId + 1)
    · refine ⟨1, by omega, ?_, ?_⟩ <;> simp [h1, h2, ingestJobs]
    · by_cases h3 : crash (st.nextId + 2)
      · refine ⟨2, by omega, ?_, ?_⟩ <;> simp [h1, h2, h3, ingestJobs]
      · refine ⟨3, by omega, ?_, ?_⟩ <;> simp [h1, h2, h3, ingestJobs]

/-- C3: when a claimed job's dispatch fails, the row is updated to
`attempts = previous + 1` and `next_at = failure time + backoff(new
attempts)` with `backoff(n) = min(60, 2^n)` seconds; the backoff sequence
is non-decreasing in the attempt number and never exceeds 60 seconds. -/
theorem c3_fail_backoff (env : Env) (st : Store) (tClaim tFail : Nat) (row : Job)
    (e : String)
    (hrow : (st.dequeue_due tClaim).1 = some row)
    (hfail : handle_job env row.jtype row.payload = .error e) :
    (∀ r ∈ (workerStep env st tClaim tFail).store.jobs, r.id = row.id →
        r.attempts = row.attempts + 1 ∧
        r.next_at = tFail + backoff (row.attempts + 1)) ∧
    (∀ n, backoff n = min 60 (2 ^ n)) ∧
    (∀ n, backoff n ≤ backoff (n + 1)) ∧ (∀ n, backoff n ≤ 60) := by
  have hsel : selectDue tClaim st.jobs = some row := by
    rw [dequeue_due_fst] at hrow; exact hrow
  refine ⟨?_, fun n => rfl, fun n => backoff_mono n, fun n => backoff_le_cap n⟩
  rw [workerStep_err env st tClaim tFail row e hsel hfail]
  intro r hr hid
  obtain ⟨r0, hr0, rfl⟩ := List.mem_map.mp hr
  by_cases h0 : r0.id = row.id
  · simp [h0]
  · rw [if_neg h0] at hid ⊢
    exact absurd hid h0

/-- C4: the claim step returns the least-id job among those with
`next_at <= now`, returns none when no job is due, and in the same step
sets the claimed job's `next_at` to `now + 5` as a lease, leaving rows
with other ids untouched — so jobs are claimed in ascending id order
among those currently due. -/
theorem c4_claim_least_due (st : Store) (now : Nat) :
    ((st.dequeue_due now).1 = none ↔ ∀ j ∈ st.jobs, ¬ j.next_at ≤ now) ∧
    (∀ j, (st.dequeue_due now).1 = some j →
      j ∈ st.jobs ∧ j.next_at ≤ now ∧
      (∀ k ∈ st.jobs, k.next_at ≤ now → j.id ≤ k.id) ∧
      (∀ r ∈ (st.dequeue_due now).2.jobs, r.id = j.id → r.next_at = now + 5) ∧
      (∀ r ∈ (st.dequeue_due now).2.jobs, r.id ≠ j.id → r ∈ st.jobs)) := by
  constructor
  · rw [dequeue_due_fst]
    exact selectDue_eq_none_iff now st.jobs
  · intro j hj
    rw [dequeue_due_fst] at hj
    obtain ⟨hmem, hdue⟩ := selectDue_mem now st.jobs j hj
    have h2 : (st.dequeue_due now).2 = st.bumpLease j.id now := by
      simp [Store.dequeue_due, hj]
    refine ⟨hmem, hdue, selectDue_min now st.jobs j hj, ?_, ?_⟩
    · intro r hr hid
      rw [h2] at hr
      simp only [Store.bumpLease] at hr
      obtain ⟨r0, hr0, rfl⟩ := List.mem_map.mp hr
      by_cases h0 : r0.id = j.id
      · simp [h0]
      · rw [if_neg h0] at hid
        exact absurd hid h0
    · intro r hr hid
      rw [h2] at hr
      simp only [Store.bumpLease] at hr
      obtain ⟨r0, hr0, rfl⟩ := List.mem_map.mp hr
      by_cases h0 : r0.id = j.id
      · rw [if_pos h0] at hid
        exact absurd h0 hid
      · rw [if_neg h0]
        exact hr0

/-- C5: a row leaves the store only through successful completion — the
claim lease and the failure update preserve the row ids, an idle pass
changes nothing, a successful dispatch removes exactly the claimed id,
and a job at or past the attempt cap is rescheduled at the capped 60 s
interval, still present and claimable, never dropped. -/
theorem c5_no_silent_drop (env : Env) (st : Store) (tClaim tFail : Nat) :
    ((st.dequeue_due tClaim).2.jobs.map Job.id = st.jobs.map Job.id) ∧
    ((st.dequeue_due tClaim).1 = none →
        (workerStep env st tClaim tFail).store.jobs = st.jobs) ∧
    (∀ row, (st.dequeue_due tClaim).1 = some row →
      (∀ e, handle_job env row.jtype row.payload = .error e →
        (workerStep env st tClaim tFail).store.jobs.map Job.id
            = st.jobs.map Job.id ∧
        (9 ≤ row.attempts →
          ∀ r ∈ (workerStep env st tClaim tFail).store.jobs, r.id = row.id →
            r.attempts = row.attempts + 1 ∧ r.next_at = tFail + 60)) ∧
      (handle_job env row.jtype row.payload = .ok () →
        (workerStep env st tClaim tFail).store.jobs.map Job.id
            = (st.jobs.map Job.id).filter (fun x => x ≠ row.id))) := by
  refine ⟨?_, ?_, ?_⟩
  · cases h : selectDue tClaim st.jobs with
    | none => simp [Store.dequeue_due, h]
    | some j => simp [Store.dequeue_due, h, bumpLease_map_id]
  · intro hnone
    rw [dequeue_due_fst] at hnone
    rw [workerStep_idle env st tClaim tFail hnone]
  · intro row hrow
    rw [dequeue_due_fst] at hrow
    constructor
    · intro e hfail
      rw [workerStep_err env st tClaim tFail row e hrow hfail]
      constructor
      · dsimp only
        rw [map_id_of_id_fixed, bumpLease_map_id]
        intro r
        by_cases h0 : r.id = row.id <;> simp [h0]
      · intro hcap r hr hid
        dsimp only at hr
        obtain ⟨r0, hr0, rfl⟩ := List.mem_map.mp hr
        by_cases h0 : r0.id = row.id
        · rw [if_pos h0]
          refine ⟨rfl, ?_⟩
          have : backoff (row.attempts + 1) = 60 :=
            backoff_at_cap (row.attempts + 1) (by omega)
          simp [this]
        · rw [if_neg h0] at hid
          exact absurd hid h0
    · intro hok
      rw [workerStep_ok env st tClaim tFail row hrow hok]
      dsimp only
      rw [map_id_filter_ne, bumpLease_map_id]

/-- C10: dispatching a job whose type string is neither S3_PUT nor ACCIO
raises `ValueError`, so such a stored job is never completed: the worker
pass takes the failure path and the set of row ids is unchanged. -/
theorem c10_unknown_type_always_fails (env : Env) (ty : String) (payload : JVal)
    (h1 : ty ≠ "S3_PUT") (h2 : ty ≠ "ACCIO") :
    handle_job env ty payload = .error ("Unknown job type " ++ ty) ∧
    (∀ st tClaim tFail row, (st.dequeue_due tClaim).1 = some row →
      row.jtype = ty →
      (workerStep env st tClaim tFail).store.jobs.map Job.id
          = st.jobs.map Job.id ∧
      (workerStep env st tClaim tFail).outcome = .failed row.id (row.attempts + 1)) := by
  have e1 : (ty == "S3_PUT") = false := beq_eq_false_iff_ne.mpr h1
  have e2 : (ty == "ACCIO") = false := beq_eq_false_iff_ne.mpr h2
  have hj : handle_job env ty payload = .error ("Unknown job type " ++ ty) := by
    simp [handle_job, e1, e2]
  refine ⟨hj, ?_⟩
  intro st tClaim tFail row hrow hty
  rw [dequeue_due_fst] at hrow
  have hfail : handle_job env row.jtype row.payload
      = .error ("Unknown job type " ++ ty) := by
    rw [hty]
    have e1b : (row.payload.get? "kind") = (row.payload.get? "kind") := rfl
    simp [handle_job, e1, e2]
  rw [workerStep_err env st tClaim tFail row ("Unknown job type " ++ ty) hrow hfail]
  constructor
  · dsimp only
    rw [map_id_of_id_fixed, bumpLease_map_id]
    intro r
    by_cases h0 : r.id = row.id <;> simp [h0]
  · rfl

theorem c10_unknown_type_always_fails_witness :
    handle_job envT "GLACIER_PUT" (.obj []) =
        .error ("Unknown job type " ++ "GLACIER_PUT") ∧
    (∀ st tClaim tFail row, (st.dequeue_due tClaim).1 = some row →
      row.jtype = "GLACIER_PUT" →
      (workerStep envT st tClaim tFail).store.jobs.map Job.id
          = st.jobs.map Job.id ∧
      (workerStep envT st tClaim tFail).outcome
          = .failed row.id (row.attempts + 1)) :=
  c10_unknown_type_always_fails envT "GLACIER_PUT" (.obj [])
    (by decide) (by decide)

/-- C1: the failing input is a stored job at attempts 9 whose dispatch
fails, reaching the cap of 10.  The worker pass retains the row
(attempts 10, rescheduled at the capped backoff) — that part of the claim
holds — but it emits no Notifier notification at all: queue.py lines
141-143 only write a log line, the comment defers the Slack call to
jobs.handle_job, and the handlers in jobs.py re-raise, deferring it back
to the worker, so no `SlackClient.error` call exists on the worker path.
The claimed single sanitized terminal-failure notification is never sent. -/
theorem c1_terminal_failure_emits_no_notification :
    (workerStep envDown stNine 100 100).notified = [] ∧
    (workerStep envDown stNine 100 100).outcome = .failed 1 10 ∧
    (workerStep envDown stNine 100 100).store.jobs.map Job.id = [1] ∧
    (workerStep envDown stNine 100 100).store.jobs.map Job.attempts = [10] ∧
    (workerStep envDown stNine 100 100).store.jobs.map Job.next_at = [160] :=
  ⟨rfl, rfl, rfl, rfl, rfl⟩

theorem c3_fail_backoff_witness :
    (∀ r ∈ (workerStep envDown stThree 50 50).store.jobs, r.id = jobThree.id →
        r.attempts = jobThree.attempts + 1 ∧
        r.next_at = 50 + backoff (jobThree.attempts + 1)) ∧
    (∀ n, backoff n = min 60 (2 ^ n)) ∧
    (∀ n, backoff n ≤ backoff (n + 1)) ∧ (∀ n, backoff n ≤ 60) :=
  c3_fail_backoff envDown stThree 50 50 jobThree "Accio HTTP 500" rfl rfl

/-- C9: a created file whose lowercased extension is outside the
allow-list is returned on before any admission step: no jobs, no
seen-file record, no notification, no file move — the whole state is
unchanged. -/
theorem c9_unsupported_ext_ignored (env : Env) (stats : Nat → Stat)
    (name : String) (content : Bytes) (sys : SysState) (now : Nat)
    (h : strLower (pathSuffix name) ∉ allowedExts) :
    on_created env stats name content sys now = sys := by
  simp [on_created, h]

theorem c9_unsupported_ext_ignored_witness :
    on_created envT statsConst "note.txt" [1, 2] sysFresh 0 = sysFresh :=
  c9_unsupported_ext_ignored envT statsConst "note.txt" [1, 2] sysFresh 0
    (by decide)

/-- C8: with an allow-listed extension, if no iteration of the 60-probe
stability wait sees two identical consecutive samples, admission raises
the timeout: the store is untouched, the file lands in the failed
directory and not in processed, and one sanitized PROCESSING_FAILED
notification is queued; conversely, any run that changed the processed
directory observed a stable sample pair within the bound. -/
theorem c8_stability_gate (env : Env) (stats : Nat → Stat) (name : String)
    (content : Bytes) (sys : SysState) (now : Nat)
    (hext : strLower (pathSuffix name) ∈ allowedExts) :
    ((∀ i < 60, is_stable stats i = false) →
      (on_created env stats name content sys now).store = sys.store ∧
      (on_created env stats name content sys now).fs.failed
          = fsWrite sys.fs.failed name content ∧
      (on_created env stats name content sys now).fs.processed
          = sys.fs.processed ∧
      (on_created env stats name content sys now).notified
          = sys.notified ++ slackError env "PROCESSING_FAILED"
              [("filename", name), ("message", "file not stable")]) ∧
    ((on_created env stats name content sys now).fs.processed ≠ sys.fs.processed →
      ∃ i, i < 60 ∧ is_stable stats i = true) := by
  constructor
  · intro hall
    have hnone : stableIdx stats = none := by
      rw [stableIdx, List.find?_eq_none]
      intro i hi
      rw [List.mem_range] at hi
      simp [hall i hi]
    simp [on_created, hext, hnone]
  · intro hchanged
    cases hfind : stableIdx stats with
    | none =>
      exfalso
      apply hchanged
      simp [on_created, hext, hfind]
    | some i =>
      have hfind2 : (List.range 60).find? (is_stable stats) = some i := hfind
      have hp := List.find?_some hfind2
      have hm := List.mem_of_find?_eq_some hfind2
      rw [List.mem_range] at hm
      exact ⟨i, hm, hp⟩

theorem c8_stability_gate_witness :
    (on_created envT statsGrowing "a.pdf" [7] sysFresh 5).store
        = sysFresh.store ∧
    (on_created envT statsGrowing "a.pdf" [7] sysFresh 5).fs.failed
        = fsWrite sysFresh.fs.failed "a.pdf" [7] ∧
    (on_created envT statsGrowing "a.pdf" [7] sysFresh 5).fs.processed
        = sysFresh.fs.processed ∧
    (on_created envT statsGrowing "a.pdf" [7] sysFresh 5).notified
        = sysFresh.notified ++ slackError envT "PROCESSING_FAILED"
            [("filename", "a.pdf"), ("message", "file not stable")] :=
  (c8_stability_gate envT statsGrowing "a.pdf" [7] sysFresh 5 (by decide)).1
    (by decide)

theorem mark_seen_jobs (st : Store) (sha filename : String) (t : Nat) :
    (st.mark_seen sha filename t).jobs = st.jobs := by
  unfold Store.mark_seen
  by_cases h : st.is_seen sha
  · rw [if_pos h]
  · rw [if_neg h]

theorem mark_seen_seen_of_not (st : Store) (sha filename : String) (t : Nat)
    (h : st.is_seen sha = false) :
    (st.mark_seen sha filename t).seen = st.seen ++ [⟨sha, filename, t⟩] := by
  unfold Store.mark_seen
  rw [if_neg (by simp [h])]

theorem mark_seen_is_seen (st : Store) (sha filename : String) (t : Nat) :
    (st.mark_seen sha filename t).is_seen sha = true := by
  unfold Store.mark_seen
  by_cases h : st.is_seen sha
  · rw [if_pos h]
    exact h
  · rw [if_neg h]
    simp [Store.is_seen, List.any_append]

theorem ingest_jobs_len (env : Env) (st : Store) (d : DocumentPayload)
    (sha : String) (content : Bytes) (ct filename : String) (now : Nat) :
    (enqueue_ingest_jobs env st d sha content ct filename now).jobs.length
      = st.jobs.length + 3 := by
  simp [enqueue_ingest_jobs, Store.enqueue]

theorem ingest_seen (env : Env) (st : Store) (d : DocumentPayload)
    (sha : String) (content : Bytes) (ct filename : String) (now : Nat) :
    (enqueue_ingest_jobs env st d sha content ct filename now).seen = st.seen :=
  rfl

theorem process_ok_of_allowed (env : Env) (name : String) (content : Bytes)
    (h : strLower (pathSuffix name) ∈ allowedExts) :
    ∃ d ct, process_file_to_payload env name content
      = .ok (d, content, ct, env.sha256_file content) := by
  have h4 : strLower (pathSuffix name) = ".pdf" ∨ strLower (pathSuffix name) = ".jpg"
      ∨ strLower (pathSuffix name) = ".jpeg"
      ∨ strLower (pathSuffix name) = ".png" := by
    simpa [allowedExts] using h
  rcases h4 with hc | hc | hc | hc
  · exact ⟨⟨name, env.sha256_file content, env.extract_pdf_pages content⟩,
      "application/pdf", by simp [process_file_to_payload, hc]⟩
  · exact ⟨⟨name, env.sha256_file content, [⟨1, env.ocr_image content⟩]⟩,
      "image/jpeg", by simp [process_file_to_payload, hc]⟩
  · exact ⟨⟨name, env.sha256_file content, [⟨1, env.ocr_image content⟩]⟩,
      "image/jpeg", by simp [process_file_to_payload, hc]⟩
  · exact ⟨⟨name, env.sha256_file content, [⟨1, env.ocr_image content⟩]⟩,
      "image/png", by simp [process_file_to_payload, hc]⟩

/-- C2: admitting two byte-identical files one after the other, under any
filenames with allow-listed extensions and with the content not seen
before, enqueues exactly one set of three jobs and records exactly one
seen-file entry; the second admission hits the dedup gate before any
enqueue — store untouched — and its file is written to the processed
directory.  (`sha256_file` is absent from the sources; it enters only as
an arbitrary deterministic function of the bytes, per spec §4.1.) -/
theorem c2_dedup_idempotent (env : Env) (stats1 stats2 : Nat → Stat)
    (n1 n2 : String) (content : Bytes) (sys : SysState) (t1 t2 : Nat)
    (hx1 : strLower (pathSuffix n1) ∈ allowedExts)
    (hx2 : strLower (pathSuffix n2) ∈ allowedExts)
    (hs1 : (stableIdx stats1).isSome = true)
    (hs2 : (stableIdx stats2).isSome = true)
    (hnew : sys.store.is_seen (env.sha256_file content) = false) :
    (on_created env stats1 n1 content sys t1).store.jobs.length
        = sys.store.jobs.length + 3 ∧
    (on_created env stats1 n1 content sys t1).store.seen
        = sys.store.seen ++ [⟨env.sha256_file content, n1, t1⟩] ∧
    (on_created env stats2 n2 content
        (on_created env stats1 n1 content sys t1) t2).store
      = (on_created env stats1 n1 content sys t1).store ∧
    (on_created env stats2 n2 content
        (on_created env stats1 n1 content sys t1) t2).fs.processed
      = fsWrite (on_created env stats1 n1 content sys t1).fs.processed n2
          content := by
  obtain ⟨i1, hi1⟩ := Option.isSome_iff_exists.mp hs1
  obtain ⟨i2, hi2⟩ := Option.isSome_iff_exists.mp hs2
  obtain ⟨d1, ct1, hp1⟩ := process_ok_of_allowed env n1 content hx1
  obtain ⟨d2, ct2, hp2⟩ := process_ok_of_allowed env n2 content hx2
  have e1 : on_created env stats1 n1 content sys t1
      = { store := enqueue_ingest_jobs env
            (sys.store.mark_seen (env.sha256_file content) n1 t1)
            d1 (env.sha256_file content) content ct1 n1 t1,
          fs := { sys.fs with
            processed := fsWrite sys.fs.processed n1 content,
            watch := fsRemove sys.fs.watch n1 },
          notified := sys.notified } := by
    unfold on_created
    rw [if_pos hx1, hi1]
    dsimp only
    rw [hp1]
    dsimp only
    simp only [hnew, Bool.false_eq_true, if_false]
  have hseen1 : (on_created env stats1 n1 content sys t1).store.is_seen
      (env.sha256_file content) = true := by
    rw [e1]
    have : (enqueue_ingest_jobs env
        (sys.store.mark_seen (env.sha256_file content) n1 t1)
        d1 (env.sha256_file content) content ct1 n1 t1).is_seen
          (env.sha256_file content)
        = (sys.store.mark_seen (env.sha256_file content) n1 t1).is_seen
            (env.sha256_file content) := rfl
    rw [this]
    exact mark_seen_is_seen sys.store (env.sha256_file content) n1 t1
  have e2gen : ∀ s1 : SysState,
      s1.store.is_seen (env.sha256_file content) = true →
      on_created env stats2 n2 content s1 t2
      = { s1 with fs := { s1.fs with
            processed := fsWrite s1.fs.processed n2 content,
            watch := fsRemove s1.fs.watch n2 } } := by
    intro s1 hs
    unfold on_created
    rw [if_pos hx2, hi2]
    dsimp only
    rw [hp2]
    dsimp only
    simp [hs]
  have e2 := e2gen (on_created env stats1 n1 content sys t1) hseen1
  refine ⟨?_, ?_, ?_, ?_⟩
  · rw [e1]
    dsimp only
    rw [ingest_jobs_len, mark_seen_jobs]
  · rw [e1]
    dsimp only
    rw [ingest_seen, mark_seen_seen_of_not sys.store (env.sha256_file content)
      n1 t1 hnew]
  · rw [e2]
  · rw [e2]

theorem c2_dedup_idempotent_witness :
    (on_created envT statsConst "a.pdf" [1, 2] sysFresh 10).store.jobs.length
        = sysFresh.store.jobs.length + 3 ∧
    (on_created envT statsConst "a.pdf" [1, 2] sysFresh 10).store.seen
        = sysFresh.store.seen ++ [⟨envT.sha256_file [1, 2], "a.pdf", 10⟩] ∧
    (on_created envT statsConst "b.pdf" [1, 2]
        (on_created envT statsConst "a.pdf" [1, 2] sysFresh 10) 20).store
      = (on_created envT statsConst "a.pdf" [1, 2] sysFresh 10).store ∧
    (on_created envT statsConst "b.pdf" [1, 2]
        (on_created envT statsConst "a.pdf" [1, 2] sysFresh 10) 20).fs.processed
      = fsWrite (on_created envT statsConst "a.pdf" [1, 2] sysFresh 10).fs.processed
          "b.pdf" [1, 2] :=
  c2_dedup_idempotent envT statsConst statsConst "a.pdf" "b.pdf" [1, 2] sysFresh
    10 20 (by decide) (by decide) rfl rfl rfl

end Accio
